import Mathlib

/-
Verification of the SputnikVM host interface of ethereumproject/go-ethereum.

Sources embedded here:
- src/vendor/github.com/ETCDEVTeam/sputnikvm-ffi/c/sputnikvm.h  (FFI layer)
- src/machine/sputnik/sputnikvm.h                                 (machine layer)
- src/crypto/secp256k1/libsecp256k1/src/ext.c                     (curve extensions)

The repository ships only the C declarations of the execution engine; the
engine body lives outside src/.  Where a claim is decided by that missing
body, the behaviour is modelled from the specification (such definitions
carry a doc comment starting with: Modelled from the spec).
-/

/- ===================== Value encoding ===================== -/

/-- 160-bit address, kept as a Nat at the boundary. -/
abbrev Address := Nat

/-- Unsigned 256-bit integer, kept as a Nat at the boundary. -/
abbrev U256 := Nat

/-- Raw byte sequence (each element is one byte value). -/
abbrev Bytes := List Nat

/- ===================== Transaction, header, patch ===================== -/

/-- Action kind of a transaction: CALL_ACTION or CREATE_ACTION
(sputnikvm_action in the FFI header). -/
inductive VMAction
  | call
  | create
deriving DecidableEq, Repr

/-- sputnikvm_transaction from the FFI header: caller, gas price, gas
limit, action, action address, value, input bytes, nonce. -/
structure Transaction where
  caller : Address
  gasPrice : U256
  gasLimit : U256
  action : VMAction
  actionAddress : Address
  input : Bytes
  value : U256
  nonce : U256
deriving DecidableEq, Repr

/-- sputnikvm_header_params from the FFI header: beneficiary, timestamp,
number, difficulty, block gas limit. -/
structure HeaderParams where
  beneficiary : Address
  timestamp : Nat
  number : U256
  difficulty : U256
  gasLimit : U256
deriving DecidableEq, Repr

/-- Named fork of the ruleset; one FFI constructor exists per fork. -/
inductive Fork
  | frontier
  | homestead
  | eip150
  | eip160
deriving DecidableEq, Repr

/-- Patch selector: the FFI header exposes mainnet, morden and custom
constructors for each fork.  Note the selector carries no nonce field;
the custom initial nonce travels through a separate global setter. -/
inductive Patch
  | mainnet (f : Fork)
  | morden (f : Fork)
  | custom (f : Fork)
deriving DecidableEq, Repr

/- ===================== Requirement protocol ===================== -/

/-- sputnikvm_require from the FFI header: a tagged variant with type
require_none, require_account, require_account_code,
require_account_storage or require_blockhash and the matching payload. -/
inductive Requirement
  | none
  | account (addr : Address)
  | accountCode (addr : Address)
  | accountStorage (addr : Address) (key : U256)
  | blockhash (number : Nat)
deriving DecidableEq, Repr

/-- Status of a session as specified: Running, ExitedOk, ExitedErr,
Unsupported. -/
inductive Status
  | Running
  | ExitedOk
  | ExitedErr
  | Unsupported
deriving DecidableEq, Repr

/-- A fact committed by the host, one constructor per commit operation of
the FFI header: sputnikvm_commit_account, sputnikvm_commit_nonexist,
sputnikvm_commit_account_code, sputnikvm_commit_account_storage,
sputnikvm_commit_blockhash. -/
inductive HostFact
  | account (addr : Address) (nonce : U256) (balance : U256) (code : Bytes)
  | nonexist (addr : Address)
  | code (addr : Address) (code : Bytes)
  | storage (addr : Address) (key : U256) (value : U256)
  | blockhash (number : Nat) (hash : U256)
deriving DecidableEq, Repr

/-- Whether a committed fact resolves the given pending requirement
(address and key must match the requirement exactly). -/
def factResolves : HostFact → Requirement → Bool
  | HostFact.account a _ _ _, Requirement.account b => a = b
  | HostFact.nonexist a, Requirement.account b => a = b
  | HostFact.code a _, Requirement.accountCode b => a = b
  | HostFact.storage a k _, Requirement.accountStorage b k2 => a = b && k = k2
  | HostFact.blockhash n _, Requirement.blockhash m => n = m
  | _, _ => false

/-- Whether the set of already committed facts resolves a requirement. -/
def knownResolves (known : List HostFact) (r : Requirement) : Bool :=
  known.any (fun f => factResolves f r)

/- ===================== Account change diff model ===================== -/

/-- sputnikvm_account_change from the FFI header: increase balance,
decrease balance, full, create, removed. -/
inductive AccountChange
  | increaseBalance (address : Address) (amount : U256)
  | decreaseBalance (address : Address) (amount : U256)
  | full (address : Address) (nonce : U256) (balance : U256)
      (storage : List (U256 × U256)) (code : Bytes)
  | created (address : Address) (nonce : U256) (balance : U256)
      (storage : List (U256 × U256)) (code : Bytes)
  | removed (address : Address)
deriving DecidableEq, Repr

/-- Address that keys an account change entry. -/
def changeAddress : AccountChange → Address
  | AccountChange.increaseBalance a _ => a
  | AccountChange.decreaseBalance a _ => a
  | AccountChange.full a _ _ _ _ => a
  | AccountChange.created a _ _ _ _ => a
  | AccountChange.removed a => a

/-- Modelled from the spec: the diff bookkeeping of the engine (absent
from src/) merges successive operations on one address into a single net
variant: two increases sum, increase against decrease nets out, removed
is terminal for the address, and full or create supersedes prior
balance-only entries. -/
def mergeChange (old upd : AccountChange) : AccountChange :=
  match old, upd with
  | AccountChange.removed a, _ => AccountChange.removed a
  | AccountChange.increaseBalance a x, AccountChange.increaseBalance _ y =>
      AccountChange.increaseBalance a (x + y)
  | AccountChange.decreaseBalance a x, AccountChange.decreaseBalance _ y =>
      AccountChange.decreaseBalance a (x + y)
  | AccountChange.increaseBalance a x, AccountChange.decreaseBalance _ y =>
      if y ≤ x then AccountChange.increaseBalance a (x - y)
      else AccountChange.decreaseBalance a (y - x)
  | AccountChange.decreaseBalance a x, AccountChange.increaseBalance _ y =>
      if x ≤ y then AccountChange.increaseBalance a (y - x)
      else AccountChange.decreaseBalance a (x - y)
  | _, u => u

/-- Modelled from the spec: the account change set is keyed by address;
recording a change either merges into the existing entry for that
address or appends a fresh entry. -/
def applyChange : List AccountChange → AccountChange → List AccountChange
  | [], c => [c]
  | e :: rest, c =>
      if changeAddress e = changeAddress c then mergeChange e c :: rest
      else e :: applyChange rest c

/- ===================== Result surface ===================== -/

/-- One log entry: address, ordered topics, opaque data. -/
structure LogEntry where
  address : Address
  topics : List U256
  data : Bytes
deriving DecidableEq, Repr

/-- Modelled from the spec: accumulated results of a session (gas used,
refund, output, logs, account changes, suicide list, error message). -/
structure Results where
  usedGas : U256
  refund : U256
  output : Bytes
  logs : List LogEntry
  accountChanges : List AccountChange
  suicides : List Address
  error : Option String
deriving DecidableEq, Repr

/-- The all-empty result surface a fresh session starts from. -/
def emptyResults : Results :=
  { usedGas := 0, refund := 0, output := [], logs := [],
    accountChanges := [], suicides := [], error := Option.none }

/- ===================== Execution session ===================== -/

/-- Modelled from the spec: the instruction interpreter is out of scope
and is abstracted as a sequence of interpreter events: external reads
(which suspend when the fact is unknown), result-surface effects, and
terminal transitions. -/
inductive Instr
  | readAccount (addr : Address)
  | readCode (addr : Address)
  | readStorage (addr : Address) (key : U256)
  | readBlockhash (number : Nat)
  | incBalance (addr : Address) (amount : U256)
  | decBalance (addr : Address) (amount : U256)
  | writeFull (addr : Address) (nonce : U256) (balance : U256)
      (storage : List (U256 × U256)) (code : Bytes)
  | createAccount (addr : Address) (nonce : U256) (balance : U256)
      (storage : List (U256 × U256)) (code : Bytes)
  | removeAccount (addr : Address)
  | emitLog (addr : Address) (topics : List U256) (data : Bytes)
  | useGas (amount : U256)
  | addRefund (amount : U256)
  | setOutput (out : Bytes)
  | exitOk
  | exitErr (msg : String)
  | unsupported
deriving DecidableEq, Repr

/-- Modelled from the spec: a session owns its transaction, header,
patch, interpreter program, program counter, status, the at most one
pending requirement, the facts committed so far, the accumulated
results, and the custom initial nonce captured at construction. -/
structure Session where
  transaction : Transaction
  header : HeaderParams
  patch : Patch
  program : List Instr
  pc : Nat
  status : Status
  pending : Requirement
  known : List HostFact
  results : Results
  customInitialNonce : U256
deriving DecidableEq, Repr

/-- Effect of one non-read interpreter event on the result surface. -/
def applyEffect (res : Results) : Instr → Results
  | Instr.incBalance a v =>
      { res with accountChanges :=
          applyChange res.accountChanges (AccountChange.increaseBalance a v) }
  | Instr.decBalance a v =>
      { res with accountChanges :=
          applyChange res.accountChanges (AccountChange.decreaseBalance a v) }
  | Instr.writeFull a n b st c =>
      { res with accountChanges :=
          applyChange res.accountChanges (AccountChange.full a n b st c) }
  | Instr.createAccount a n b st c =>
      { res with accountChanges :=
          applyChange res.accountChanges (AccountChange.created a n b st c) }
  | Instr.removeAccount a =>
      { res with
        accountChanges := applyChange res.accountChanges (AccountChange.removed a)
        suicides := res.suicides ++ [a] }
  | Instr.emitLog a ts d =>
      { res with logs := res.logs ++ [{ address := a, topics := ts, data := d }] }
  | Instr.useGas g => { res with usedGas := res.usedGas + g }
  | Instr.addRefund r => { res with refund := res.refund + r }
  | Instr.setOutput o => { res with output := o }
  | _ => res

/-- Outcome of resuming the interpreter: suspend at a program counter
with a requirement, or finish with a terminal status. -/
inductive Outcome
  | suspend (pc : Nat) (r : Requirement) (res : Results)
  | finish (st : Status) (res : Results)
deriving DecidableEq, Repr

/-- Result surface carried by an outcome. -/
def Outcome.results : Outcome → Results
  | Outcome.suspend _ _ res => res
  | Outcome.finish _ res => res

/-- Modelled from the spec: resume interpretation over the remaining
events.  A read whose fact is already committed is answered from the
committed facts and execution continues; a read whose fact is unknown
suspends with exactly that requirement; terminal events stop with the
corresponding status (output is cleared on error); other events update
the result surface. -/
def runInstrs (known : List HostFact) : List Instr → Nat → Results → Outcome
  | [], _, res => Outcome.finish Status.ExitedOk res
  | i :: rest, pc, res =>
      match i with
      | Instr.readAccount a =>
          if knownResolves known (Requirement.account a) then
            runInstrs known rest (pc + 1) res
          else Outcome.suspend pc (Requirement.account a) res
      | Instr.readCode a =>
          if knownResolves known (Requirement.accountCode a) then
            runInstrs known rest (pc + 1) res
          else Outcome.suspend pc (Requirement.accountCode a) res
      | Instr.readStorage a k =>
          if knownResolves known (Requirement.accountStorage a k) then
            runInstrs known rest (pc + 1) res
          else Outcome.suspend pc (Requirement.accountStorage a k) res
      | Instr.readBlockhash n =>
          if knownResolves known (Requirement.blockhash n) then
            runInstrs known rest (pc + 1) res
          else Outcome.suspend pc (Requirement.blockhash n) res
      | Instr.exitOk => Outcome.finish Status.ExitedOk res
      | Instr.exitErr msg =>
          Outcome.finish Status.ExitedErr
            { res with error := some msg, output := [] }
      | Instr.unsupported => Outcome.finish Status.Unsupported res
      | eff => runInstrs known rest (pc + 1) (applyEffect res eff)

/-- Modelled from the spec: sputnikvm_fire resumes execution.  On a
terminal status it is a no-op reporting Requirement.none; while a
requirement is still unresolved it re-reports that same requirement and
changes nothing; otherwise it resumes the interpreter from the last
suspension point and either suspends on a fresh requirement or reaches a
terminal status. -/
def sputnikvm_fire (s : Session) : Session × Requirement :=
  match s.status with
  | Status.Running =>
      if s.pending = Requirement.none then
        match runInstrs s.known (s.program.drop s.pc) s.pc s.results with
        | Outcome.suspend pc r res =>
            ({ s with pc := pc, pending := r, results := res }, r)
        | Outcome.finish st res =>
            ({ s with status := st, pending := Requirement.none, results := res },
             Requirement.none)
      else (s, s.pending)
  | _ => (s, Requirement.none)

/-- Modelled from the spec: a commit is validated against the pending
requirement; a matching fact is appended to the committed facts and
clears the pending requirement, anything else is rejected with a false
indicator and leaves the session untouched. -/
def commit (s : Session) (f : HostFact) : Session × Bool :=
  if s.status = Status.Running ∧ factResolves f s.pending = true then
    ({ s with known := s.known ++ [f], pending := Requirement.none }, true)
  else (s, false)

/-- sputnikvm_commit_account of the FFI header, as a commit of a full
account fact. -/
def sputnikvm_commit_account (s : Session) (addr : Address) (nonce balance : U256)
    (code : Bytes) : Session × Bool :=
  commit s (HostFact.account addr nonce balance code)

/-- sputnikvm_commit_account_code of the FFI header. -/
def sputnikvm_commit_account_code (s : Session) (addr : Address) (code : Bytes) :
    Session × Bool :=
  commit s (HostFact.code addr code)

/-- sputnikvm_commit_account_storage of the FFI header. -/
def sputnikvm_commit_account_storage (s : Session) (addr : Address)
    (key value : U256) : Session × Bool :=
  commit s (HostFact.storage addr key value)

/-- sputnikvm_commit_nonexist of the FFI header. -/
def sputnikvm_commit_nonexist (s : Session) (addr : Address) : Session × Bool :=
  commit s (HostFact.nonexist addr)

/-- sputnikvm_commit_blockhash of the FFI header. -/
def sputnikvm_commit_blockhash (s : Session) (number : Nat) (hash : U256) :
    Session × Bool :=
  commit s (HostFact.blockhash number hash)

/-- Modelled from the spec: session construction captures transaction,
header, patch and the custom initial nonce; status starts Running with
no pending requirement, no committed facts and empty results. -/
def createSession (tx : Transaction) (hdr : HeaderParams) (p : Patch)
    (prog : List Instr) (initialNonce : U256) : Session :=
  { transaction := tx, header := hdr, patch := p, program := prog, pc := 0,
    status := Status.Running, pending := Requirement.none, known := [],
    results := emptyResults, customInitialNonce := initialNonce }

/-- sputnikvm_default_transaction of the FFI header: the all-zero
transaction value. -/
def sputnikvm_default_transaction : Transaction :=
  { caller := 0, gasPrice := 0, gasLimit := 0, action := VMAction.call,
    actionAddress := 0, input := [], value := 0, nonce := 0 }

/-- sputnikvm_default_header_params of the FFI header: the all-zero
header value. -/
def sputnikvm_default_header_params : HeaderParams :=
  { beneficiary := 0, timestamp := 0, number := 0, difficulty := 0, gasLimit := 0 }

/-- Modelled from the spec: the full advance/commit loop.  Fire the
session; when it reports a requirement, feed it the next host fact and
continue; stop on Requirement.none (terminal status) or when the host
facts run out.  Returns the reported requirement sequence and the final
session. -/
def runLoop : Session → List HostFact → List Requirement × Session
  | s, [] => ([(sputnikvm_fire s).2], (sputnikvm_fire s).1)
  | s, f :: rest =>
      let a := sputnikvm_fire s
      if a.2 = Requirement.none then ([a.2], a.1)
      else
        let c := commit a.1 f
        let r := runLoop c.1 rest
        (a.2 :: r.1, r.2)

/-- A complete run: create the session from transaction, header and
patch, then drive the advance/commit loop over the committed facts. -/
def fullRun (tx : Transaction) (hdr : HeaderParams) (p : Patch)
    (prog : List Instr) (commits : List HostFact) : List Requirement × Session :=
  runLoop (createSession tx hdr p prog 0) commits

/- ===================== Claim C2 ===================== -/

/-- C2: Status is the four-state enumeration Running, ExitedOk,
ExitedErr, Unsupported, and every terminal status is absorbing: once the
session status is ExitedOk, ExitedErr or Unsupported, sputnikvm_fire is
a no-op that returns the unchanged session together with
Requirement.none, so the same terminal status is re-reported, no result
surface content changes and no side effect re-executes. -/
theorem sputnikvm_status_terminal_idempotent :
    (∀ st : Status, st = Status.Running ∨ st = Status.ExitedOk ∨
      st = Status.ExitedErr ∨ st = Status.Unsupported)
    ∧ (∀ s : Session,
        s.status = Status.ExitedOk ∨ s.status = Status.ExitedErr ∨
          s.status = Status.Unsupported →
        sputnikvm_fire s = (s, Requirement.none)) := by
  constructor
  · intro st
    cases st
    · exact Or.inl rfl
    · exact Or.inr (Or.inl rfl)
    · exact Or.inr (Or.inr (Or.inl rfl))
    · exact Or.inr (Or.inr (Or.inr rfl))
  · intro s h
    obtain ⟨tx, hdr, p, prog, pc, st, pend, kn, res, non⟩ := s
    rcases h with h | h | h <;> simp_all [sputnikvm_fire]

/-- Session already at a terminal status, used to instantiate the
terminal idempotence theorem. -/
def terminalSession : Session :=
  { transaction := sputnikvm_default_transaction,
    header := sputnikvm_default_header_params,
    patch := Patch.mainnet Fork.frontier, program := [], pc := 0,
    status := Status.ExitedOk, pending := Requirement.none, known := [],
    results := emptyResults, customInitialNonce := 0 }

/-- Witness for C2 at a concrete terminal session. -/
theorem sputnikvm_status_terminal_idempotent_witness :
    sputnikvm_fire terminalSession = (terminalSession, Requirement.none) :=
  sputnikvm_status_terminal_idempotent.2 terminalSession (Or.inl rfl)

/- ===================== Claim C3 ===================== -/

/-- A requirement suspended on by the interpreter is never one that the
already committed facts can resolve. -/
theorem runInstrs_suspend_not_known (known : List HostFact) :
    ∀ (l : List Instr) (pc : Nat) (res : Results) (pc2 : Nat)
      (r : Requirement) (res2 : Results),
      runInstrs known l pc res = Outcome.suspend pc2 r res2 →
      knownResolves known r = false := by
  intro l
  induction l with
  | nil => intro pc res pc2 r res2 h; simp [runInstrs] at h
  | cons i rest ih =>
    intro pc res pc2 r res2 h
    cases i <;> simp only [runInstrs] at h
    case readAccount a =>
      by_cases hk : knownResolves known (Requirement.account a) = true
      · rw [if_pos hk] at h; exact ih _ _ _ _ _ h
      · rw [if_neg hk] at h
        cases h
        exact Bool.eq_false_iff.mpr hk
    case readCode a =>
      by_cases hk : knownResolves known (Requirement.accountCode a) = true
      · rw [if_pos hk] at h; exact ih _ _ _ _ _ h
      · rw [if_neg hk] at h
        cases h
        exact Bool.eq_false_iff.mpr hk
    case readStorage a k =>
      by_cases hk : knownResolves known (Requirement.accountStorage a k) = true
      · rw [if_pos hk] at h; exact ih _ _ _ _ _ h
      · rw [if_neg hk] at h
        cases h
        exact Bool.eq_false_iff.mpr hk
    case readBlockhash n =>
      by_cases hk : knownResolves known (Requirement.blockhash n) = true
      · rw [if_pos hk] at h; exact ih _ _ _ _ _ h
      · rw [if_neg hk] at h
        cases h
        exact Bool.eq_false_iff.mpr hk
    all_goals first
      | (exact ih _ _ _ _ _ h)
      | (cases h)

/-- No fact resolves the empty requirement. -/
theorem factResolves_none (f : HostFact) :
    factResolves f Requirement.none = false := by
  cases f <;> rfl

/-- C3: at most one requirement is outstanding and committed facts are
never requested again.  While a requirement is unresolved,
sputnikvm_fire re-reports that same requirement without issuing a new
one; when no requirement is pending, the requirement reported by
sputnikvm_fire is never resolvable by any already committed fact (so a
fact committed earlier in the session is never requested again); and the
committed-fact set only ever grows: commit either leaves it unchanged or
appends the new fact, and sputnikvm_fire never drops a fact. -/
theorem sputnikvm_require_single_outstanding_no_repeat :
    (∀ s : Session, s.status = Status.Running → s.pending ≠ Requirement.none →
      sputnikvm_fire s = (s, s.pending))
    ∧ (∀ (s : Session) (f : HostFact), s.pending = Requirement.none →
        f ∈ s.known → factResolves f (sputnikvm_fire s).2 = false)
    ∧ (∀ (s : Session) (f : HostFact),
        ((commit s f).1.known = s.known ∨ (commit s f).1.known = s.known ++ [f])
        ∧ (sputnikvm_fire s).1.known = s.known) := by
  refine ⟨?_, ?_, ?_⟩
  · intro s h1 h2
    obtain ⟨tx, hdr, p, prog, pc, st, pend, kn, res, non⟩ := s
    simp only at h1
    subst h1
    simp_all [sputnikvm_fire]
  · intro s f h1 h2
    obtain ⟨tx, hdr, p, prog, pc, st, pend, kn, res, non⟩ := s
    simp only at h1 h2
    subst h1
    cases st
    case Running =>
      simp only [sputnikvm_fire, if_pos rfl]
      rcases ho : runInstrs kn (List.drop pc prog) pc res with
        ⟨pc2, r, res2⟩ | ⟨st2, res2⟩
      · have hnk := runInstrs_suspend_not_known kn _ _ _ _ _ _ ho
        simp [knownResolves] at hnk
        exact hnk f h2
      · simp [factResolves_none]
    all_goals simp [sputnikvm_fire, factResolves_none]
  · intro s f
    constructor
    · by_cases h : s.status = Status.Running ∧ factResolves f s.pending = true
      · right; simp [commit, if_pos h]
      · left; simp [commit, if_neg h]
    · obtain ⟨tx, hdr, p, prog, pc, st, pend, kn, res, non⟩ := s
      cases st <;> simp only [sputnikvm_fire]
      case Running =>
        by_cases hp : pend = Requirement.none
        · subst hp
          simp only [if_pos rfl]
          rcases ho : runInstrs kn (List.drop pc prog) pc res with
            ⟨pc2, r, res2⟩ | ⟨st2, res2⟩ <;> simp
        · simp [if_neg hp]

/-- Running session with an unresolved pending requirement, used to
instantiate the single-outstanding-requirement theorem. -/
def pendingSession : Session :=
  { transaction := sputnikvm_default_transaction,
    header := sputnikvm_default_header_params,
    patch := Patch.mainnet Fork.frontier,
    program := [Instr.readAccount 9, Instr.exitOk], pc := 0,
    status := Status.Running, pending := Requirement.account 7,
    known := [HostFact.nonexist 9], results := emptyResults,
    customInitialNonce := 0 }

/-- The same session with its requirement resolved. -/
def resolvedSession : Session := { pendingSession with pending := Requirement.none }

/-- Witness for C3 at concrete sessions: the unresolved requirement is
re-reported unchanged, and a fire after resolution never requests the
already committed fact. -/
theorem sputnikvm_require_single_outstanding_no_repeat_witness :
    sputnikvm_fire pendingSession = (pendingSession, Requirement.account 7)
    ∧ factResolves (HostFact.nonexist 9) (sputnikvm_fire resolvedSession).2 = false :=
  ⟨sputnikvm_require_single_outstanding_no_repeat.1 pendingSession rfl (by decide),
   sputnikvm_require_single_outstanding_no_repeat.2.1 resolvedSession
     (HostFact.nonexist 9) rfl (by decide)⟩

/- ===================== Claim C1 ===================== -/

/-- C1: determinism of the advance/commit loop.  Any two complete runs
from the same transaction, header, patch, interpreter behaviour and
committed-fact sequence agree on the reported requirement sequence, the
final status, and every result surface component: gas used, refund,
output, logs, account changes and suicide list. -/
theorem sputnikvm_fire_deterministic (tx : Transaction) (hdr : HeaderParams)
    (p : Patch) (prog : List Instr) (commits : List HostFact)
    (r1 r2 : List Requirement × Session)
    (h1 : r1 = fullRun tx hdr p prog commits)
    (h2 : r2 = fullRun tx hdr p prog commits) :
    r1.1 = r2.1 ∧ r1.2.status = r2.2.status
    ∧ r1.2.results.usedGas = r2.2.results.usedGas
    ∧ r1.2.results.refund = r2.2.results.refund
    ∧ r1.2.results.output = r2.2.results.output
    ∧ r1.2.results.logs = r2.2.results.logs
    ∧ r1.2.results.accountChanges = r2.2.results.accountChanges
    ∧ r1.2.results.suicides = r2.2.results.suicides := by
  subst h1; subst h2
  exact ⟨rfl, rfl, rfl, rfl, rfl, rfl, rfl, rfl⟩

/-- Witness for C1: two runs of the empty program with no commits. -/
theorem sputnikvm_fire_deterministic_witness :
    (fullRun sputnikvm_default_transaction sputnikvm_default_header_params
        (Patch.mainnet Fork.frontier) [] []).1
      = (fullRun sputnikvm_default_transaction sputnikvm_default_header_params
          (Patch.mainnet Fork.frontier) [] []).1
    ∧ (fullRun sputnikvm_default_transaction sputnikvm_default_header_params
        (Patch.mainnet Fork.frontier) [] []).2.status
      = (fullRun sputnikvm_default_transaction sputnikvm_default_header_params
          (Patch.mainnet Fork.frontier) [] []).2.status
    ∧ (fullRun sputnikvm_default_transaction sputnikvm_default_header_params
        (Patch.mainnet Fork.frontier) [] []).2.results.usedGas
      = (fullRun sputnikvm_default_transaction sputnikvm_default_header_params
          (Patch.mainnet Fork.frontier) [] []).2.results.usedGas
    ∧ (fullRun sputnikvm_default_transaction sputnikvm_default_header_params
        (Patch.mainnet Fork.frontier) [] []).2.results.refund
      = (fullRun sputnikvm_default_transaction sputnikvm_default_header_params
          (Patch.mainnet Fork.frontier) [] []).2.results.refund
    ∧ (fullRun sputnikvm_default_transaction sputnikvm_default_header_params
        (Patch.mainnet Fork.frontier) [] []).2.results.output
      = (fullRun sputnikvm_default_transaction sputnikvm_default_header_params
          (Patch.mainnet Fork.frontier) [] []).2.results.output
    ∧ (fullRun sputnikvm_default_transaction sputnikvm_default_header_params
        (Patch.mainnet Fork.frontier) [] []).2.results.logs
      = (fullRun sputnikvm_default_transaction sputnikvm_default_header_params
          (Patch.mainnet Fork.frontier) [] []).2.results.logs
    ∧ (fullRun sputnikvm_default_transaction sputnikvm_default_header_params
        (Patch.mainnet Fork.frontier) [] []).2.results.accountChanges
      = (fullRun sputnikvm_default_transaction sputnikvm_default_header_params
          (Patch.mainnet Fork.frontier) [] []).2.results.accountChanges
    ∧ (fullRun sputnikvm_default_transaction sputnikvm_default_header_params
        (Patch.mainnet Fork.frontier) [] []).2.results.suicides
      = (fullRun sputnikvm_default_transaction sputnikvm_default_header_params
          (Patch.mainnet Fork.frontier) [] []).2.results.suicides :=
  sputnikvm_fire_deterministic sputnikvm_default_transaction
    sputnikvm_default_header_params (Patch.mainnet Fork.frontier) [] [] _ _ rfl rfl

/- ===================== Claim C5 ===================== -/

/-- Merging two entries for the same address keeps that address. -/
theorem mergeChange_address (old c : AccountChange)
    (h : changeAddress old = changeAddress c) :
    changeAddress (mergeChange old c) = changeAddress old := by
  cases old <;> cases c <;>
    simp only [mergeChange, changeAddress] at h ⊢ <;>
    (try split_ifs) <;> simp_all [changeAddress]

/-- An address present after recording a change was present before or is
the address of the recorded change. -/
theorem applyChange_mem (cs : List AccountChange) (c : AccountChange) (x : Address)
    (hx : x ∈ (applyChange cs c).map changeAddress) :
    x ∈ cs.map changeAddress ∨ x = changeAddress c := by
  induction cs with
  | nil => simp [applyChange] at hx; exact Or.inr hx
  | cons e rest ih =>
    simp only [applyChange] at hx
    by_cases h : changeAddress e = changeAddress c
    · rw [if_pos h] at hx
      simp only [List.map_cons, List.mem_cons] at hx
      rcases hx with hx | hx
      · rw [mergeChange_address e c h] at hx
        exact Or.inl (by simp [hx])
      · exact Or.inl (by simp [hx])
    · rw [if_neg h] at hx
      simp only [List.map_cons, List.mem_cons] at hx
      rcases hx with hx | hx
      · exact Or.inl (by simp [hx])
      · rcases ih hx with h2 | h2
        · exact Or.inl (by simp [h2])
        · exact Or.inr h2

/-- Recording a change preserves the one-entry-per-address invariant. -/
theorem applyChange_nodup (cs : List AccountChange) (c : AccountChange)
    (h : (cs.map changeAddress).Nodup) :
    ((applyChange cs c).map changeAddress).Nodup := by
  induction cs with
  | nil => simp [applyChange]
  | cons e rest ih =>
    simp only [applyChange]
    by_cases hc : changeAddress e = changeAddress c
    · rw [if_pos hc]
      simp only [List.map_cons, List.nodup_cons] at h ⊢
      exact ⟨by rw [mergeChange_address e c hc]; exact h.1, h.2⟩
    · rw [if_neg hc]
      simp only [List.map_cons, List.nodup_cons] at h ⊢
      refine ⟨?_, ih h.2⟩
      intro hmem
      rcases applyChange_mem rest c _ hmem with h2 | h2
      · exact h.1 h2
      · exact hc h2

/-- Every result-surface effect preserves the invariant. -/
theorem applyEffect_nodup (res : Results) (i : Instr)
    (h : (res.accountChanges.map changeAddress).Nodup) :
    (((applyEffect res i).accountChanges).map changeAddress).Nodup := by
  cases i <;> simp only [applyEffect] <;>
    first
      | exact applyChange_nodup _ _ h
      | exact h

/-- Resuming the interpreter preserves the invariant. -/
theorem runInstrs_nodup (known : List HostFact) :
    ∀ (l : List Instr) (pc : Nat) (res : Results),
      (res.accountChanges.map changeAddress).Nodup →
      (((runInstrs known l pc res).results).accountChanges.map changeAddress).Nodup := by
  intro l
  induction l with
  | nil => intro pc res h; exact h
  | cons i rest ih =>
    intro pc res h
    cases i <;> simp only [runInstrs, Outcome.results]
    case readAccount a =>
      by_cases hk : knownResolves known (Requirement.account a) = true
      · rw [if_pos hk]; exact ih _ _ h
      · rw [if_neg hk]; exact h
    case readCode a =>
      by_cases hk : knownResolves known (Requirement.accountCode a) = true
      · rw [if_pos hk]; exact ih _ _ h
      · rw [if_neg hk]; exact h
    case readStorage a k =>
      by_cases hk : knownResolves known (Requirement.accountStorage a k) = true
      · rw [if_pos hk]; exact ih _ _ h
      · rw [if_neg hk]; exact h
    case readBlockhash n =>
      by_cases hk : knownResolves known (Requirement.blockhash n) = true
      · rw [if_pos hk]; exact ih _ _ h
      · rw [if_neg hk]; exact h
    case exitOk => exact h
    case exitErr msg => exact h
    case unsupported => exact h
    all_goals exact ih _ _ (applyEffect_nodup res _ h)

/-- The one-entry-per-address invariant on a session. -/
def changesKeyed (s : Session) : Prop :=
  ((s.results.accountChanges).map changeAddress).Nodup

/-- sputnikvm_fire preserves the invariant. -/
theorem sputnikvm_fire_nodup (s : Session) (h : changesKeyed s) :
    changesKeyed (sputnikvm_fire s).1 := by
  obtain ⟨tx, hdr, p, prog, pc, st, pend, kn, res, non⟩ := s
  cases st <;> simp only [sputnikvm_fire]
  case Running =>
    by_cases hp : pend = Requirement.none
    · subst hp
      simp only [if_pos rfl]
      rcases ho : runInstrs kn (List.drop pc prog) pc res with
        ⟨pc2, r, res2⟩ | ⟨st2, res2⟩
      · have := runInstrs_nodup kn (List.drop pc prog) pc res h
        rw [ho] at this
        exact this
      · have := runInstrs_nodup kn (List.drop pc prog) pc res h
        rw [ho] at this
        exact this
    · simp only [if_neg hp]; exact h
  all_goals exact h

/-- commit preserves the invariant (it never touches results). -/
theorem commit_nodup (s : Session) (f : HostFact) (h : changesKeyed s) :
    changesKeyed (commit s f).1 := by
  by_cases hc : s.status = Status.Running ∧ factResolves f s.pending = true
  · simpa [changesKeyed, commit, if_pos hc] using h
  · simpa [changesKeyed, commit, if_neg hc] using h

/-- The whole advance/commit loop preserves the invariant. -/
theorem runLoop_nodup :
    ∀ (commits : List HostFact) (s : Session), changesKeyed s →
      changesKeyed (runLoop s commits).2 := by
  intro commits
  induction commits with
  | nil => intro s h; exact sputnikvm_fire_nodup s h
  | cons f rest ih =>
    intro s h
    simp only [runLoop]
    by_cases ha : (sputnikvm_fire s).2 = Requirement.none
    · rw [if_pos ha]; exact sputnikvm_fire_nodup s h
    · rw [if_neg ha]
      exact ih _ (commit_nodup _ f (sputnikvm_fire_nodup s h))

/-- C5: the account change set of a complete run holds at most one entry
per address, and two sequential balance increases to one address within
a single transaction collapse into a single IncreaseBalance entry whose
amount is the sum of the two increases. -/
theorem sputnikvm_account_changes_keyed_and_collapsed :
    (∀ (tx : Transaction) (hdr : HeaderParams) (p : Patch) (prog : List Instr)
        (commits : List HostFact),
      (((fullRun tx hdr p prog commits).2.results.accountChanges).map
          changeAddress).Nodup)
    ∧ (∀ (a : Address) (x y : U256),
        (fullRun sputnikvm_default_transaction sputnikvm_default_header_params
            (Patch.mainnet Fork.frontier)
            [Instr.incBalance a x, Instr.incBalance a y, Instr.exitOk]
            []).2.results.accountChanges
          = [AccountChange.increaseBalance a (x + y)]) := by
  constructor
  · intro tx hdr p prog commits
    exact runLoop_nodup commits _ (by simp [changesKeyed, createSession, emptyResults])
  · intro a x y
    simp [fullRun, runLoop, createSession, sputnikvm_fire, runInstrs, applyEffect,
      applyChange, mergeChange, changeAddress, emptyResults]

/- ===================== Header declarations ===================== -/

/-- C types appearing in the two headers under src/. -/
inductive CType
  | void
  | cInt
  | cUInt
  | cChar
  | cUChar
  | int32
  | uint64
  | sizeT
  | voidPtr
  | constVoidPtr
  | constCharPtr
  | ucharPtr
  | addressT
  | gasT
  | u256T
  | h256T
  | actionT
  | transactionT
  | headerParamsT
  | requireT
  | logT
  | logPtr
  | accountChangePtr
  | accountChangeStoragePtr
  | vmPtr
deriving DecidableEq, BEq, Repr

/-- Whether a C type is a pointer type. -/
def CType.isPointer : CType → Bool
  | CType.voidPtr => true
  | CType.constVoidPtr => true
  | CType.constCharPtr => true
  | CType.ucharPtr => true
  | CType.logPtr => true
  | CType.accountChangePtr => true
  | CType.accountChangeStoragePtr => true
  | CType.vmPtr => true
  | _ => false

/-- One extern function declaration: name, return type, argument types. -/
structure CDecl where
  name : String
  ret : CType
  args : List CType
deriving DecidableEq, Repr

/-- The extern declarations of src/machine/sputnik/sputnikvm.h, in
source order. -/
def machineHeaderDecls : List CDecl := [
  { name := "sputnikvm_is_implemented", ret := CType.int32, args := [] },
  { name := "sputnikvm_fire", ret := CType.int32, args := [CType.voidPtr] },
  { name := "sputnikvm_context", ret := CType.voidPtr,
    args := [CType.constVoidPtr, CType.constVoidPtr, CType.constVoidPtr,
             CType.constVoidPtr, CType.constVoidPtr, CType.constVoidPtr,
             CType.sizeT, CType.constVoidPtr, CType.constVoidPtr, CType.int32,
             CType.uint64, CType.uint64, CType.constVoidPtr] },
  { name := "sputnikvm_req_address", ret := CType.constCharPtr, args := [CType.voidPtr] },
  { name := "sputnikvm_req_hash", ret := CType.constCharPtr, args := [CType.voidPtr] },
  { name := "sputnikvm_req_blocknum", ret := CType.uint64, args := [CType.voidPtr] },
  { name := "sputnikvm_commit_value", ret := CType.void,
    args := [CType.voidPtr, CType.constVoidPtr, CType.constVoidPtr, CType.constVoidPtr] },
  { name := "sputnikvm_commit_account", ret := CType.void,
    args := [CType.voidPtr, CType.constVoidPtr, CType.uint64, CType.constVoidPtr,
             CType.constVoidPtr, CType.sizeT] },
  { name := "sputnikvm_commit_code", ret := CType.void,
    args := [CType.voidPtr, CType.constVoidPtr, CType.constVoidPtr, CType.sizeT] },
  { name := "sputnikvm_commit_blockhash", ret := CType.void,
    args := [CType.voidPtr, CType.uint64, CType.constVoidPtr] },
  { name := "sputnikvm_error", ret := CType.constCharPtr, args := [CType.voidPtr] },
  { name := "sputnikvm_status", ret := CType.int32, args := [CType.voidPtr] },
  { name := "sputnikvm_terminate", ret := CType.void, args := [CType.voidPtr] },
  { name := "sputnikvm_gas_copy", ret := CType.sizeT, args := [CType.voidPtr, CType.voidPtr] },
  { name := "sputnikvm_refund_copy", ret := CType.sizeT, args := [CType.voidPtr, CType.voidPtr] },
  { name := "sputnikvm_out_len", ret := CType.sizeT, args := [CType.voidPtr] },
  { name := "sputnikvm_out_copy", ret := CType.sizeT, args := [CType.voidPtr, CType.voidPtr] },
  { name := "sputnikvm_req_address_copy", ret := CType.sizeT, args := [CType.voidPtr, CType.voidPtr] },
  { name := "sputnikvm_req_hash_copy", ret := CType.sizeT, args := [CType.voidPtr, CType.voidPtr] },
  { name := "sputnikvm_first_account", ret := CType.voidPtr, args := [CType.voidPtr] },
  { name := "sputnikvm_next_account", ret := CType.voidPtr, args := [CType.voidPtr] },
  { name := "sputnikvm_acc_change", ret := CType.int32, args := [CType.voidPtr] },
  { name := "sputnikvm_acc_nonce", ret := CType.uint64, args := [CType.voidPtr] },
  { name := "sputnikvm_acc_balance_copy", ret := CType.sizeT, args := [CType.voidPtr, CType.voidPtr] },
  { name := "sputnikvm_acc_address_copy", ret := CType.sizeT, args := [CType.voidPtr, CType.voidPtr] },
  { name := "sputnikvm_acc_code_len", ret := CType.sizeT, args := [CType.voidPtr] },
  { name := "sputnikvm_acc_code_copy", ret := CType.sizeT, args := [CType.voidPtr, CType.voidPtr] },
  { name := "sputnikvm_acc_first_kv_copy", ret := CType.sizeT,
    args := [CType.voidPtr, CType.voidPtr, CType.voidPtr, CType.voidPtr] },
  { name := "sputnikvm_acc_next_kv_copy", ret := CType.sizeT,
    args := [CType.voidPtr, CType.voidPtr, CType.voidPtr] },
  { name := "sputnikvm_log", ret := CType.voidPtr, args := [CType.voidPtr, CType.sizeT] },
  { name := "sputnikvm_logs_count", ret := CType.sizeT, args := [CType.voidPtr] },
  { name := "sputnikvm_log_address_copy", ret := CType.sizeT, args := [CType.voidPtr, CType.voidPtr] },
  { name := "sputnikvm_log_data_len", ret := CType.sizeT, args := [CType.voidPtr] },
  { name := "sputnikvm_log_data_copy", ret := CType.sizeT, args := [CType.voidPtr, CType.voidPtr] },
  { name := "sputnikvm_log_topics_count", ret := CType.sizeT, args := [CType.voidPtr] },
  { name := "sputnikvm_log_topic_copy", ret := CType.sizeT,
    args := [CType.voidPtr, CType.sizeT, CType.voidPtr] },
  { name := "sputnikvm_suicides_count", ret := CType.sizeT, args := [CType.voidPtr] },
  { name := "sputnikvm_suicide_copy", ret := CType.sizeT,
    args := [CType.voidPtr, CType.sizeT, CType.voidPtr] }
]

/-- The extern declarations of
src/vendor/github.com/ETCDEVTeam/sputnikvm-ffi/c/sputnikvm.h, in source
order. -/
def ffiHeaderDecls : List CDecl := [
  { name := "print_u256", ret := CType.void, args := [CType.u256T] },
  { name := "sputnikvm_new_frontier", ret := CType.vmPtr,
    args := [CType.transactionT, CType.headerParamsT] },
  { name := "sputnikvm_new_homestead", ret := CType.vmPtr,
    args := [CType.transactionT, CType.headerParamsT] },
  { name := "sputnikvm_new_eip150", ret := CType.vmPtr,
    args := [CType.transactionT, CType.headerParamsT] },
  { name := "sputnikvm_new_eip160", ret := CType.vmPtr,
    args := [CType.transactionT, CType.headerParamsT] },
  { name := "sputnikvm_new_morden_frontier", ret := CType.vmPtr,
    args := [CType.transactionT, CType.headerParamsT] },
  { name := "sputnikvm_new_morden_homestead", ret := CType.vmPtr,
    args := [CType.transactionT, CType.headerParamsT] },
  { name := "sputnikvm_new_morden_eip150", ret := CType.vmPtr,
    args := [CType.transactionT, CType.headerParamsT] },
  { name := "sputnikvm_new_morden_eip160", ret := CType.vmPtr,
    args := [CType.transactionT, CType.headerParamsT] },
  { name := "sputnikvm_new_custom_frontier", ret := CType.vmPtr,
    args := [CType.transactionT, CType.headerParamsT] },
  { name := "sputnikvm_new_custom_homestead", ret := CType.vmPtr,
    args := [CType.transactionT, CType.headerParamsT] },
  { name := "sputnikvm_new_custom_eip150", ret := CType.vmPtr,
    args := [CType.transactionT, CType.headerParamsT] },
  { name := "sputnikvm_new_custom_eip160", ret := CType.vmPtr,
    args := [CType.transactionT, CType.headerParamsT] },
  { name := "sputnikvm_set_custom_initial_nonce", ret := CType.void,
    args := [CType.u256T] },
  { name := "sputnikvm_fire", ret := CType.requireT, args := [CType.vmPtr] },
  { name := "sputnikvm_free", ret := CType.void, args := [CType.vmPtr] },
  { name := "sputnikvm_commit_account", ret := CType.cInt,
    args := [CType.vmPtr, CType.addressT, CType.u256T, CType.u256T,
             CType.ucharPtr, CType.cUInt] },
  { name := "sputnikvm_commit_account_code", ret := CType.cInt,
    args := [CType.vmPtr, CType.addressT, CType.ucharPtr, CType.cUInt] },
  { name := "sputnikvm_commit_account_storage", ret := CType.cInt,
    args := [CType.vmPtr, CType.addressT, CType.u256T, CType.u256T] },
  { name := "sputnikvm_commit_nonexist", ret := CType.cInt,
    args := [CType.vmPtr, CType.addressT] },
  { name := "sputnikvm_commit_blockhash", ret := CType.cInt,
    args := [CType.vmPtr, CType.u256T, CType.h256T] },
  { name := "sputnikvm_logs_len", ret := CType.cUInt, args := [CType.vmPtr] },
  { name := "sputnikvm_logs_copy_info", ret := CType.void,
    args := [CType.vmPtr, CType.logPtr, CType.cUInt] },
  { name := "sputnikvm_logs_topic", ret := CType.h256T,
    args := [CType.vmPtr, CType.cUInt, CType.cUInt] },
  { name := "sputnikvm_logs_copy_data", ret := CType.void,
    args := [CType.vmPtr, CType.ucharPtr, CType.cUInt] },
  { name := "sputnikvm_account_changes_len", ret := CType.cUInt, args := [CType.vmPtr] },
  { name := "sputnikvm_account_changes_copy_info", ret := CType.void,
    args := [CType.vmPtr, CType.accountChangePtr, CType.cUInt] },
  { name := "sputnikvm_account_changes_copy_storage", ret := CType.cInt,
    args := [CType.vmPtr, CType.addressT, CType.accountChangeStoragePtr, CType.cUInt] },
  { name := "sputnikvm_account_changes_copy_code", ret := CType.cInt,
    args := [CType.vmPtr, CType.addressT, CType.ucharPtr, CType.cUInt] },
  { name := "sputnikvm_used_gas", ret := CType.gasT, args := [CType.vmPtr] },
  { name := "sputnikvm_default_transaction", ret := CType.transactionT, args := [] },
  { name := "sputnikvm_default_header_params", ret := CType.headerParamsT, args := [] },
  { name := "sputnikvm_status_failed", ret := CType.cChar, args := [CType.vmPtr] }
]

/-- The five commit operations of the FFI header. -/
def ffiCommitDecls : List CDecl :=
  ffiHeaderDecls.filter (fun d =>
    ["sputnikvm_commit_account", "sputnikvm_commit_account_code",
     "sputnikvm_commit_account_storage", "sputnikvm_commit_nonexist",
     "sputnikvm_commit_blockhash"].contains d.name)

/- ===================== Claim C4 ===================== -/

/-- C4 counterexample: in the machine-layer header the commit operations
return void, not a success/failure indicator, so the claim that every
commit operation of the repository returns such an indicator is false:
sputnikvm_commit_value (the storage commit), sputnikvm_commit_account,
sputnikvm_commit_code and sputnikvm_commit_blockhash all return void. -/
theorem machine_commit_returns_void_counterexample :
    (machineHeaderDecls.any (fun d =>
        decide (d.name = "sputnikvm_commit_value") && decide (d.ret = CType.void))) = true
    ∧ (machineHeaderDecls.any (fun d =>
        decide (d.name = "sputnikvm_commit_account") && decide (d.ret = CType.void))) = true
    ∧ (machineHeaderDecls.any (fun d =>
        decide (d.name = "sputnikvm_commit_code") && decide (d.ret = CType.void))) = true
    ∧ (machineHeaderDecls.any (fun d =>
        decide (d.name = "sputnikvm_commit_blockhash") && decide (d.ret = CType.void))) = true := by
  decide

/-- C4 as amended: the five FFI-layer commit operations (commit account,
commit account code, commit account storage, commit nonexist, commit
blockhash) each return an int success/failure indicator, and committing
a fact that does not match the currently pending requirement is reported
as a failure and leaves the session, its engine state and its result
surface unchanged. -/
theorem ffi_commit_indicator_and_mismatch_rejected :
    (ffiCommitDecls.length = 5
      ∧ ffiCommitDecls.all (fun d => decide (d.ret = CType.cInt)) = true)
    ∧ (∀ (s : Session) (f : HostFact), factResolves f s.pending = false →
        commit s f = (s, false)) := by
  refine ⟨by decide, ?_⟩
  intro s f h
  have : ¬ (s.status = Status.Running ∧ factResolves f s.pending = true) := by
    intro hc
    rw [h] at hc
    exact Bool.false_ne_true hc.2
  simp [commit, if_neg this]

/-- Witness for C4 at a concrete session and fact: the mismatched commit
is rejected and changes nothing. -/
theorem ffi_commit_indicator_and_mismatch_rejected_witness :
    factResolves (HostFact.blockhash 1 0) pendingSession.pending = false
    ∧ commit pendingSession (HostFact.blockhash 1 0) = (pendingSession, false) :=
  ⟨by decide,
   ffi_commit_indicator_and_mismatch_rejected.2 pendingSession
     (HostFact.blockhash 1 0) (by decide)⟩

/- ===================== Claim C6 ===================== -/

/-- C6 counterexample: the machine-layer header exposes result-surface
accessors that return raw pointers into engine-owned memory:
sputnikvm_first_account and sputnikvm_next_account (account change
iteration) and sputnikvm_log (per-log access) all return a pointer, so
the claim that no result accessor returns a pointer is false. -/
theorem machine_pointer_accessor_counterexample :
    (machineHeaderDecls.any (fun d =>
        decide (d.name = "sputnikvm_first_account") && d.ret.isPointer)) = true
    ∧ (machineHeaderDecls.any (fun d =>
        decide (d.name = "sputnikvm_next_account") && d.ret.isPointer)) = true
    ∧ (machineHeaderDecls.any (fun d =>
        decide (d.name = "sputnikvm_log") && d.ret.isPointer)) = true := by
  decide

/-- Result-surface accessors of the FFI header. -/
def ffiResultAccessorNames : List String :=
  ["sputnikvm_logs_len", "sputnikvm_logs_copy_info", "sputnikvm_logs_topic",
   "sputnikvm_logs_copy_data", "sputnikvm_account_changes_len",
   "sputnikvm_account_changes_copy_info", "sputnikvm_account_changes_copy_storage",
   "sputnikvm_account_changes_copy_code", "sputnikvm_used_gas",
   "sputnikvm_status_failed"]

/-- C6 as amended: in the FFI-layer header every result-surface accessor
returns a non-pointer value, and each variable-length result is exposed
as a length query plus a bounded copy into a host-owned buffer: logs via
sputnikvm_logs_len and sputnikvm_logs_copy_info / sputnikvm_logs_copy_data,
account changes via sputnikvm_account_changes_len and the copy-info,
copy-storage and copy-code calls, each copy taking a host buffer pointer
together with an explicit element count.  The machine-layer header, by
contrast, still exposes the pointer-returning accessors shown in the
counterexample. -/
theorem ffi_result_surface_length_then_copy :
    (ffiHeaderDecls.all (fun d =>
        !(ffiResultAccessorNames.contains d.name) || !(d.ret.isPointer))) = true
    ∧ (ffiHeaderDecls.any (fun d =>
        decide (d.name = "sputnikvm_logs_len") && decide (d.ret = CType.cUInt)
          && decide (d.args = [CType.vmPtr]))) = true
    ∧ (ffiHeaderDecls.any (fun d =>
        decide (d.name = "sputnikvm_logs_copy_info")
          && d.args.contains CType.logPtr && d.args.contains CType.cUInt)) = true
    ∧ (ffiHeaderDecls.any (fun d =>
        decide (d.name = "sputnikvm_logs_copy_data")
          && d.args.contains CType.ucharPtr && d.args.contains CType.cUInt)) = true
    ∧ (ffiHeaderDecls.any (fun d =>
        decide (d.name = "sputnikvm_account_changes_len")
          && decide (d.ret = CType.cUInt) && decide (d.args = [CType.vmPtr]))) = true
    ∧ (ffiHeaderDecls.any (fun d =>
        decide (d.name = "sputnikvm_account_changes_copy_info")
          && d.args.contains CType.accountChangePtr && d.args.contains CType.cUInt)) = true
    ∧ (ffiHeaderDecls.any (fun d =>
        decide (d.name = "sputnikvm_account_changes_copy_storage")
          && d.args.contains CType.accountChangeStoragePtr
          && d.args.contains CType.cUInt)) = true
    ∧ (ffiHeaderDecls.any (fun d =>
        decide (d.name = "sputnikvm_account_changes_copy_code")
          && d.args.contains CType.ucharPtr && d.args.contains CType.cUInt)) = true := by
  decide

/- ===================== Claim C10 ===================== -/

/-- SPUTNIK_VM_EXITED_OK of src/machine/sputnik/sputnikvm.h. -/
def SPUTNIK_VM_EXITED_OK : Nat := 0

/-- SPUTNIK_VM_EXITED_ERR of src/machine/sputnik/sputnikvm.h. -/
def SPUTNIK_VM_EXITED_ERR : Nat := 1

/-- SPUTNIK_VM_RUNNING of src/machine/sputnik/sputnikvm.h. -/
def SPUTNIK_VM_RUNNING : Nat := 2

/-- SPUTNIK_VM_UNSUPPORTED_ERR of src/machine/sputnik/sputnikvm.h. -/
def SPUTNIK_VM_UNSUPPORTED_ERR : Nat := 3

/-- SPUTNIK_VM_REQUIRE_ACCOUNT of src/machine/sputnik/sputnikvm.h. -/
def SPUTNIK_VM_REQUIRE_ACCOUNT : Nat := 2

/-- SPUTNIK_VM_REQUIRE_CODE of src/machine/sputnik/sputnikvm.h. -/
def SPUTNIK_VM_REQUIRE_CODE : Nat := 3

/-- SPUTNIK_VM_REQUIRE_HASH of src/machine/sputnik/sputnikvm.h. -/
def SPUTNIK_VM_REQUIRE_HASH : Nat := 4

/-- SPUTNIK_VM_REQUIRE_VALUE of src/machine/sputnik/sputnikvm.h. -/
def SPUTNIK_VM_REQUIRE_VALUE : Nat := 5

/-- The status codes of the machine-layer enumeration. -/
def machineStatusCodes : List Nat :=
  [SPUTNIK_VM_EXITED_OK, SPUTNIK_VM_EXITED_ERR, SPUTNIK_VM_RUNNING,
   SPUTNIK_VM_UNSUPPORTED_ERR]

/-- The requirement-kind codes of the machine-layer enumeration. -/
def machineRequireCodes : List Nat :=
  [SPUTNIK_VM_REQUIRE_ACCOUNT, SPUTNIK_VM_REQUIRE_CODE,
   SPUTNIK_VM_REQUIRE_HASH, SPUTNIK_VM_REQUIRE_VALUE]

/-- C10: the machine-layer status codes and requirement-kind codes share
one numeric space and collide: SPUTNIK_VM_RUNNING equals
SPUTNIK_VM_REQUIRE_ACCOUNT and SPUTNIK_VM_UNSUPPORTED_ERR equals
SPUTNIK_VM_REQUIRE_CODE, so a value of this enumeration can lie in both
code sets and cannot by itself distinguish a status from a requirement
kind. -/
theorem machine_status_require_codes_collide :
    SPUTNIK_VM_RUNNING = SPUTNIK_VM_REQUIRE_ACCOUNT
    ∧ SPUTNIK_VM_UNSUPPORTED_ERR = SPUTNIK_VM_REQUIRE_CODE
    ∧ ∃ c, c ∈ machineStatusCodes ∧ c ∈ machineRequireCodes := by
  exact ⟨rfl, rfl, 2, by decide, by decide⟩

/- ===================== Claim C9 ===================== -/

/-- Modelled from the spec and the FFI header: the process-wide mutable
configuration read by the custom-patch constructors.  The header
declares sputnikvm_set_custom_initial_nonce taking only a u256 and no
session argument, so the value it stores is global to the process. -/
structure FFIGlobal where
  customInitialNonce : U256
deriving DecidableEq, Repr

/-- The process state at startup: custom initial nonce zero. -/
def ffiGlobalInit : FFIGlobal := { customInitialNonce := 0 }

/-- sputnikvm_set_custom_initial_nonce of the FFI header: stores the
nonce into the process-wide configuration. -/
def sputnikvm_set_custom_initial_nonce (n : U256) (_g : FFIGlobal) : FFIGlobal :=
  { customInitialNonce := n }

/-- Modelled from the spec: sputnikvm_new_custom_frontier constructs a
custom-patch session from transaction and header only; the initial
account nonce it uses is read from the process-wide configuration at
construction time, not from any argument. -/
def sputnikvm_new_custom_frontier (tx : Transaction) (hdr : HeaderParams)
    (g : FFIGlobal) : Session :=
  createSession tx hdr (Patch.custom Fork.frontier) [] g.customInitialNonce

/-- C9 counterexample: two custom sessions constructed from identical
transaction, header and patch selector observe different initial-nonce
behaviour when the process-wide setter runs between the constructions,
so the initial nonce is not an explicit field of the Patch value and
process-wide mutable configuration is shared between sessions. -/
theorem custom_initial_nonce_global_counterexample :
    (sputnikvm_new_custom_frontier sputnikvm_default_transaction
        sputnikvm_default_header_params
        (sputnikvm_set_custom_initial_nonce 5 ffiGlobalInit)).customInitialNonce
    ≠ (sputnikvm_new_custom_frontier sputnikvm_default_transaction
        sputnikvm_default_header_params ffiGlobalInit).customInitialNonce := by
  decide

/-- C9 as amended: the custom-network initial nonce is process-wide
mutable configuration, not a Patch field: the setter
sputnikvm_set_custom_initial_nonce takes only a u256 and returns void
(no session argument), every custom constructor takes only transaction
and header (no nonce argument), and a custom session constructed after
the setter runs observes exactly the nonce most recently stored, for any
prior process state. -/
theorem custom_initial_nonce_process_global :
    (ffiHeaderDecls.any (fun d =>
        decide (d.name = "sputnikvm_set_custom_initial_nonce")
          && decide (d.ret = CType.void) && decide (d.args = [CType.u256T]))) = true
    ∧ (ffiHeaderDecls.any (fun d =>
        decide (d.name = "sputnikvm_new_custom_frontier")
          && decide (d.args = [CType.transactionT, CType.headerParamsT]))) = true
    ∧ (∀ (g : FFIGlobal) (n : U256) (tx : Transaction) (hdr : HeaderParams),
        (sputnikvm_new_custom_frontier tx hdr
            (sputnikvm_set_custom_initial_nonce n g)).customInitialNonce = n) := by
  exact ⟨by decide, by decide, fun g n tx hdr => rfl⟩

/- ===================== Curve primitives ===================== -/

/-- Order of the secp256k1 group (the curve order n). -/
def secpOrder : Nat :=
  0xFFFFFFFFFFFFFFFFFFFFFFFFFFFFFFFEBAAEDCE6AF48A03BBFD25E8CD0364141

/-- Prime of the secp256k1 base field. -/
def secpP : Nat :=
  0xFFFFFFFFFFFFFFFFFFFFFFFFFFFFFFFFFFFFFFFFFFFFFFFFFFFFFFFEFFFFFC2F

/-- Value of a big-endian byte sequence. -/
def beBytesToNat (bs : Bytes) : Nat :=
  bs.foldl (fun acc b => acc * 256 + b) 0

/-- The 32-byte big-endian encoding of a value below 2 to the 256. -/
def natToBeBytes32 (v : Nat) : Bytes :=
  (List.range 32).map (fun i => v / 256 ^ (31 - i) % 256)

/-- Square-and-multiply modular exponentiation, with structural fuel (one
unit per bit of the exponent). -/
def powModAux (m : Nat) : Nat → Nat → Nat → Nat
  | _, _, 0 => 1 % m
  | b, e, fuel + 1 =>
      if e = 0 then 1 % m
      else
        let r := powModAux m (b * b % m) (e / 2) fuel
        if e % 2 = 1 then r * b % m else r

/-- Modular exponentiation; 300 units of fuel cover any 256-bit
exponent. -/
def powMod (m b e : Nat) : Nat := powModAux m (b % m) e 300

/-- Inverse in the prime field of modulus m, by the Fermat exponent; zero
maps to zero. -/
def modInv (m a : Nat) : Nat :=
  if a % m = 0 then 0 else powMod m a (m - 2)

/-- Affine secp256k1 point; Option.none is the point at infinity. -/
def ECPoint := Option (Nat × Nat)

/-- Modelled from the spec: addition on the curve in affine coordinates
(the group law behind the scalar product the spec speaks of; the
implementation of secp256k1_ecmult_const is not part of src/). -/
def pointAdd : ECPoint → ECPoint → ECPoint
  | Option.none, q => q
  | p, Option.none => p
  | some (a, b), some (c, d) =>
      let x1 := a % secpP
      let y1 := b % secpP
      let x2 := c % secpP
      let y2 := d % secpP
      if x1 = x2 ∧ (y1 + y2) % secpP = 0 then Option.none
      else
        let l :=
          if x1 = x2 then 3 * x1 * x1 % secpP * modInv secpP (2 * y1 % secpP) % secpP
          else (y2 + secpP - y1) % secpP * modInv secpP ((x2 + secpP - x1) % secpP) % secpP
        let x3 := (l * l + 2 * secpP - x1 - x2) % secpP
        let y3 := (l * ((x1 + secpP - x3) % secpP) + (secpP - y1)) % secpP
        some (x3, y3)

/-- Doubling on the curve. -/
def pointDouble (p : ECPoint) : ECPoint := pointAdd p p

/-- Double-and-add scalar multiplication, with structural fuel. -/
def scalarMultAux : Nat → Nat → ECPoint → ECPoint
  | 0, _, _ => Option.none
  | fuel + 1, k, p =>
      if k = 0 then Option.none
      else
        let r := scalarMultAux fuel (k / 2) (pointDouble p)
        if k % 2 = 1 then pointAdd r p else r

/-- Modelled from the spec: the scalar product of a point (the operation
secp256k1_ecmult_const performs); 300 units of fuel cover any 256-bit
scalar. -/
def scalarMult (k : Nat) (p : ECPoint) : ECPoint := scalarMultAux 300 k p

/-- Big-endian 32-byte x coordinate of a point (what fe_get_b32 writes
after normalisation); the infinity case never arises for a valid public
key and a nonzero reduced scalar. -/
def xCoordBytes : ECPoint → Bytes
  | Option.none => natToBeBytes32 0
  | some (x, _) => natToBeBytes32 x

/-- secp256k1_pubkey_load: the public point with both field coordinates
normalised. -/
def secp256k1_pubkey_load (px py : Nat) : ECPoint :=
  some (px % secpP, py % secpP)

/-- Modelled from the spec: secp256k1_scalar_inverse computes the
multiplicative inverse in the scalar field of the group order (its body,
a Fermat-exponent ladder, lives in the library internals outside src/);
the zero scalar maps to zero. -/
def scalarInverse (a : Nat) : Nat :=
  if a % secpOrder = 0 then 0 else powMod secpOrder a (secpOrder - 2)

/-- Shallow embedding of secp256k1_ec_privkey_inverse of
src/crypto/secp256k1/libsecp256k1/src/ext.c.  The C body declares the
locals ret = 0 and overflow = 0, calls secp256k1_scalar_set_b32 with a
NULL overflow out-pointer (so the local overflow is never written and
the out-of-range reduction is silently applied), computes
ret = !overflow on that never-written local, and when ret is nonzero
zeroes the output buffer and writes the inverse of the reduced scalar.
Returns the C return value together with the bytes written (Option.none
would mean the buffer was left untouched). -/
def secp256k1_ec_privkey_inverse (seckey : Bytes) : Nat × Option Bytes :=
  let sec := beBytesToNat seckey % secpOrder
  let overflow := 0
  let ret := if overflow = 0 then 1 else 0
  if ret = 1 then (ret, some (natToBeBytes32 (scalarInverse sec)))
  else (ret, Option.none)

/-- Shallow embedding of secp256k1_ecdh_raw of
src/crypto/secp256k1/libsecp256k1/src/ext.c: load the point, set the
scalar from the 32 input bytes (reducing modulo the group order and
recording overflow), fail with 0 when overflow is set or the reduced
scalar is zero, otherwise multiply the point by the scalar and write the
big-endian x coordinate, returning 1. -/
def secp256k1_ecdh_raw (px py : Nat) (scalar : Bytes) : Nat × Option Bytes :=
  let v := beBytesToNat scalar
  let s := v % secpOrder
  if secpOrder ≤ v ∨ s = 0 then (0, Option.none)
  else (1, some (xCoordBytes (scalarMult s (secp256k1_pubkey_load px py))))

/- ===================== Claim C7 ===================== -/

/-- C7: secp256k1_ec_privkey_inverse never signals failure.  Its return
value is 1 on every 32-byte input, including inputs that are out of
range: at the 32-byte big-endian encoding of the group order itself (an
out-of-range scalar) it still returns 1 and writes the inverse of the
silently reduced scalar, which is zero, so the all-zero buffer comes
back marked as success.  The claim that an out-of-range or zero input is
rejected with a 0 return is therefore violated by the code. -/
theorem privkey_inverse_never_signals_failure :
    (∀ bs : Bytes, (secp256k1_ec_privkey_inverse bs).1 = 1)
    ∧ (secp256k1_ec_privkey_inverse (natToBeBytes32 secpOrder)).1 = 1
    ∧ secpOrder ≤ beBytesToNat (natToBeBytes32 secpOrder)
    ∧ (secp256k1_ec_privkey_inverse (natToBeBytes32 secpOrder)).2
        = some (natToBeBytes32 0) := by
  refine ⟨fun bs => rfl, rfl, by decide, ?_⟩
  have h : beBytesToNat (natToBeBytes32 secpOrder) % secpOrder = 0 := by decide
  simp [secp256k1_ec_privkey_inverse, h, scalarInverse]

/- ===================== Claim C8 ===================== -/

/-- The failure test the code performs (overflow or reduced scalar zero)
holds exactly when the input value is zero or at least the group
order. -/
theorem secp_fail_cond (v : Nat) :
    (secpOrder ≤ v ∨ v % secpOrder = 0) ↔ (v = 0 ∨ secpOrder ≤ v) := by
  constructor
  · rintro (h | h)
    · exact Or.inr h
    · rcases Nat.lt_or_ge v secpOrder with hlt | hge
      · rw [Nat.mod_eq_of_lt hlt] at h
        exact Or.inl h
      · exact Or.inr hge
  · rintro (h | h)
    · subst h
      exact Or.inr (Nat.zero_mod _)
    · exact Or.inl h

/-- C8: secp256k1_ecdh_raw fails with 0 exactly when the scalar value is
zero or not below the curve order, and otherwise returns 1 and writes
the big-endian x coordinate of the scalar multiplied by the loaded
public point. -/
theorem secp256k1_ecdh_raw_spec_correct (px py : Nat) (bs : Bytes) :
    ((secp256k1_ecdh_raw px py bs).1 = 0 ↔
      (beBytesToNat bs = 0 ∨ secpOrder ≤ beBytesToNat bs))
    ∧ secp256k1_ecdh_raw px py bs =
        (if beBytesToNat bs = 0 ∨ secpOrder ≤ beBytesToNat bs
         then (0, Option.none)
         else (1, some (xCoordBytes (scalarMult (beBytesToNat bs)
                  (secp256k1_pubkey_load px py))))) := by
  by_cases h : beBytesToNat bs = 0 ∨ secpOrder ≤ beBytesToNat bs
  · have hc : secpOrder ≤ beBytesToNat bs ∨ beBytesToNat bs % secpOrder = 0 :=
      (secp_fail_cond (beBytesToNat bs)).mpr h
    constructor
    · simp [secp256k1_ecdh_raw, if_pos hc, h]
    · simp [secp256k1_ecdh_raw, if_pos hc, if_pos h]
  · have hc : ¬ (secpOrder ≤ beBytesToNat bs ∨ beBytesToNat bs % secpOrder = 0) :=
      fun hx => h ((secp_fail_cond (beBytesToNat bs)).mp hx)
    have hlt : beBytesToNat bs < secpOrder := by
      rcases Nat.lt_or_ge (beBytesToNat bs) secpOrder with hlt | hge
      · exact hlt
      · exact absurd (Or.inl hge) hc
    have hmod : beBytesToNat bs % secpOrder = beBytesToNat bs :=
      Nat.mod_eq_of_lt hlt
    constructor
    · simp [secp256k1_ecdh_raw, if_neg hc, h]
    · simp [secp256k1_ecdh_raw, if_neg hc, if_neg h, hmod]
      exact ⟨hlt, fun h0 => h (Or.inl h0)⟩
